import Mathlib

/-!
Shallow embedding of the batching and batch-execution core of the
slow-workers repository, together with theorems settling the frozen
claims about it.

Two models are developed:

* `Batching` embeds `src/src/job/manager.py` (`JobManager`): the
  accumulator that groups arriving requests into time/size-bounded
  batches (`purge`, `process_request`, `close`), driven by a trace of
  arrival events and periodic-purge ticks (the tick mirrors
  `Application._periodic_purge` in `src/src/main.py`, which calls
  `job_manager.purge()` on a timer).  Timestamps are integers
  (milliseconds); `datetime.now()` becomes an explicit `now` argument
  carried by each event.

* `Worker` embeds `src/services/worker/job/processor.py` (`Job`, the
  BatchExecutor) and `src/services/worker/job/models.py`
  (`JobMetrics`, `JobStatus`): per-request processing with its sink
  calls, metrics updates and semaphore releases, the dispatch loop of
  `run()` with its cooperative-cancellation checks, and the final
  status computation.  The environment of one request (how many
  fragments the generator yields, where an exception fires, whether
  the `mark_error` recovery write itself succeeds) is an explicit
  `ReqEnv` value; cancellation is hard, as in the source — `cancel()`
  sets the flag and synchronously `task.cancel()`s every active task —
  so a `CancelInfo` value records where the dispatch loop observes the
  flag and the per-task cancellation `Fate`s; the metrics object a
  `Job` holds persists across `run()` calls in `JobState`.

* `Queued` embeds `process_batch` of `src/src/job/processor.py`
  together with `PromptProcessor.process_prompt` of
  `src/src/processor/prompt_processor.py`: the queue-based execution
  path in which a per-request exception is written to the sink and
  then re-raised into `asyncio.gather` (no `return_exceptions=True`).
-/

namespace Batching

/-- `JobRequest` of `src/src/job/models.py`: id and prompt.  The uuid is
modelled as a `Nat`.  The `__post_init__` validation (empty prompt is
rejected with `ValueError`) is applied at the construction sites below. -/
structure JobRequest where
  id : Nat
  prompt : String
deriving DecidableEq, Repr

/-- `Batch` of `src/src/job/models.py`: an ordered list of requests plus
a creation timestamp (milliseconds). -/
structure Batch where
  requests : List JobRequest
  created_at : Int
deriving DecidableEq, Repr

/-- The state of a `JobManager` (`src/src/job/manager.py`): the
configuration (`batch_window`, `max_requests_per_job`) and the private
current batch `self.__batch`, which is `None` or a `Batch`. -/
structure ManagerState where
  batch_window : Int
  max_requests_per_job : Nat
  batch : Option Batch
deriving DecidableEq, Repr

/-- `JobManager._batch_size`: `None if not self._has_batch else
len(self.__batch.requests)`. -/
def batchSize (s : ManagerState) : Option Nat :=
  s.batch.map (fun b => b.requests.length)

/-- `JobManager._batch_is_full`: `self._batch_size >=
self.max_requests_per_job`.  When `_batch_size` is `None`, the Python
comparison `None >= int` raises `TypeError`; this is modelled as the
`Except.error` branch. -/
def batchIsFull (s : ManagerState) : Except String Bool :=
  match batchSize s with
  | none => Except.error "TypeError: >= not supported between NoneType and int"
  | some n => Except.ok (decide (s.max_requests_per_job ≤ n))

/-- `JobManager._batch_age`: `now - created_at` when a batch exists,
`timedelta()` (zero) otherwise. -/
def batchAge (s : ManagerState) (now : Int) : Int :=
  match s.batch with
  | none => 0
  | some b => now - b.created_at

/-- `JobManager.purge`: return unchanged when no batch exists; otherwise
dispatch (via `_create_job`) and clear the batch when `batch_age >=
self.batch_window or self._batch_is_full`, mirroring the
short-circuiting `or` of the source.  The result pairs the new state
with the dispatched batch contents, if any. -/
def purge (s : ManagerState) (now : Int) :
    Except String (ManagerState × Option (List JobRequest)) :=
  match s.batch with
  | none => Except.ok (s, none)
  | some b =>
    if s.batch_window ≤ now - b.created_at then
      Except.ok ({ s with batch := none }, some b.requests)
    else
      match batchIsFull s with
      | Except.error e => Except.error e
      | Except.ok full =>
        if full then Except.ok ({ s with batch := none }, some b.requests)
        else Except.ok (s, none)

/-- `JobManager._add_to_batch`: create the batch (with `created_at =
datetime.now()`) if none exists, then append the request. -/
def addToBatch (s : ManagerState) (r : JobRequest) (now : Int) : ManagerState :=
  match s.batch with
  | none => { s with batch := some ⟨[r], now⟩ }
  | some b => { s with batch := some ⟨b.requests ++ [r], b.created_at⟩ }

/-- Outcome of one externally triggered step of the manager: the new
state, the batches dispatched during the step (in dispatch order), and
the exception that escaped the step, if any. -/
structure StepOut where
  state : ManagerState
  dispatched : List (List JobRequest)
  raised : Option String
deriving Repr

/-- `JobManager.process_request`: `purge`; construct `JobRequest(id,
prompt)` (whose validation raises `ValueError` on an empty prompt,
after the first purge already ran) and `_add_to_batch`; `purge` again. -/
def processRequest (s : ManagerState) (rid : Nat) (prompt : String) (now : Int) :
    StepOut :=
  match purge s now with
  | Except.error e => ⟨s, [], some e⟩
  | Except.ok (s1, d1) =>
    if prompt = "" then
      ⟨s1, d1.toList, some "ValueError: Prompt cannot be empty"⟩
    else
      let s2 := addToBatch s1 ⟨rid, prompt⟩ now
      match purge s2 now with
      | Except.error e => ⟨s2, d1.toList, some e⟩
      | Except.ok (s3, d2) => ⟨s3, d1.toList ++ d2.toList, none⟩

/-- `JobManager.close`: dispatch the remaining requests (`if
self._batch_requests: await self._create_job(...)`); `_batch_requests`
is `[]` when no batch exists. -/
def close (s : ManagerState) : List (List JobRequest) :=
  match s.batch with
  | none => []
  | some b => if b.requests.isEmpty then [] else [b.requests]

/-- External events driving a `JobManager`: a request arrival
(`process_request`, called from the API handler) and a periodic-purge
tick (`Application._periodic_purge` in `src/src/main.py` calling
`purge`).  Each carries the wall clock `now` at which it runs. -/
inductive Event where
  | req (rid : Nat) (prompt : String) (now : Int)
  | tick (now : Int)
deriving DecidableEq, Repr

/-- One event step: `tick` runs `purge`, `req` runs `process_request`. -/
def stepEv (s : ManagerState) (e : Event) : ManagerState × List (List JobRequest) :=
  match e with
  | Event.tick now =>
    match purge s now with
    | Except.error _ => (s, [])
    | Except.ok (s1, d) => (s1, d.toList)
  | Event.req rid prompt now =>
    let o := processRequest s rid prompt now
    (o.state, o.dispatched)

/-- Run a trace of events, collecting all dispatched batches in order. -/
def runTrace (s : ManagerState) : List Event → ManagerState × List (List JobRequest)
  | [] => (s, [])
  | e :: es =>
    let p := stepEv s e
    let q := runTrace p.1 es
    (q.1, p.2 ++ q.2)

/-- The requests a trace successfully accepts: one per `req` event whose
prompt passes validation (non-empty), in arrival order. -/
def acceptedOf : List Event → List JobRequest
  | [] => []
  | Event.req rid prompt _ :: es =>
    (if prompt = "" then [] else [(⟨rid, prompt⟩ : JobRequest)]) ++ acceptedOf es
  | Event.tick _ :: es => acceptedOf es

/-- The requests still pending in the current batch of a state. -/
def pendingOf (s : ManagerState) : List JobRequest :=
  match s.batch with
  | none => []
  | some b => b.requests

/-- A fresh manager (`self.__batch = None`). -/
def initState (window : Int) (maxReq : Nat) : ManagerState :=
  ⟨window, maxReq, none⟩

end Batching

namespace Worker

/-- `JobStatus` of `src/services/worker/job/models.py`. -/
inductive JobStatus where
  | completed
  | cancelled
  | failed
  | partiallyCompleted
  | inProgress
deriving DecidableEq, Repr

/-- `JobMetrics` of `src/services/worker/job/models.py`.  Python floats
are modelled as rationals. -/
structure JobMetrics where
  total_requests : Nat
  successful_requests : Nat
  failed_requests : Nat
  total_chars_generated : Nat
  total_processing_time : ℚ
deriving DecidableEq, Repr

/-- `JobMetrics.success_rate`: `successful / total`, `0.0` when
`total_requests == 0`. -/
def success_rate (m : JobMetrics) : ℚ :=
  if m.total_requests = 0 then 0
  else (m.successful_requests : ℚ) / (m.total_requests : ℚ)

/-- `JobMetrics.avg_processing_time`: `total_time / total`, `0.0` when
`total_requests == 0`. -/
def avg_processing_time (m : JobMetrics) : ℚ :=
  if m.total_requests = 0 then 0
  else m.total_processing_time / (m.total_requests : ℚ)

/-- The sink operations `Job.process_request` performs on its
`ResultProcessor` for one request id, in the order of the source:
`initialize_result`, `append_result`, `finalize_result`, `mark_error`. -/
inductive SinkOp where
  | init
  | append
  | finalize
  | markError
deriving DecidableEq, Repr

/-- Externally observable status of one request in the sink, as a
poller reads it: `absent` before `initialize_result`, `inProgressS`
afterwards, `completedS` after `finalize_result`, `failedS` after
`mark_error`. -/
inductive SinkStatus where
  | absent
  | inProgressS
  | completedS
  | failedS
deriving DecidableEq, Repr

/-- Effect of one sink operation on the observed status. -/
def applyOp (s : SinkStatus) (op : SinkOp) : SinkStatus :=
  match op with
  | SinkOp.init => SinkStatus.inProgressS
  | SinkOp.append => s
  | SinkOp.finalize => SinkStatus.completedS
  | SinkOp.markError => SinkStatus.failedS

/-- Observed status after a sequence of sink operations. -/
def statusOfOps (ops : List SinkOp) : SinkStatus :=
  ops.foldl applyOp SinkStatus.absent

/-- Environment behaviour of one request while `Job.process_request`
runs it: either every external call succeeds (`ok`, the generator
yields `frags` fragments and processing takes `t` seconds), or an
exception fires at a definite point — while `initialize_result` runs
(`initFail`), while the generator produces fragment number `before`
(`genFail`), while `append_result` writes fragment number `before`
(`sinkFail`), or while `finalize_result` runs after a fully consumed
stream of `frags` fragments (`finalizeFail`).  Every failure
constructor carries `meOk`, whether the `await mark_error` call that
the `except` block then makes succeeds: the sink is fallible there
too, and when that write raises, the new exception escapes
`process_request` after `failed_requests` was already incremented. -/
inductive ReqEnv where
  | ok (frags : Nat) (t : ℚ)
  | initFail (msg : String) (meOk : Bool)
  | genFail (before : Nat) (msg : String) (meOk : Bool)
  | sinkFail (before : Nat) (msg : String) (meOk : Bool)
  | finalizeFail (frags : Nat) (msg : String) (t : ℚ) (meOk : Bool)
deriving DecidableEq, Repr

/-- Whether the environment makes the request fail, and if so whether
the `except` block's own `mark_error` write succeeds: `none` for a
fully successful request, `some meOk` for a failing one. -/
def markErrorOutcome : ReqEnv → Option Bool
  | ReqEnv.ok _ _ => none
  | ReqEnv.initFail _ me => some me
  | ReqEnv.genFail _ _ me => some me
  | ReqEnv.sinkFail _ _ me => some me
  | ReqEnv.finalizeFail _ _ _ me => some me

/-- How many `append_result` writes the environment lets the streaming
loop complete before anything fails or the stream ends. -/
def appendBudget : ReqEnv → Nat
  | ReqEnv.ok f _ => f
  | ReqEnv.initFail _ _ => 0
  | ReqEnv.genFail b _ _ => b
  | ReqEnv.sinkFail b _ _ => b
  | ReqEnv.finalizeFail f _ _ _ => f

/-- Result of `Job.process_request` on one request: the increments it
applies to `self.metrics` (`successful_requests`, `failed_requests`,
`total_chars_generated`, `total_processing_time`), the sink operations
it performed, the number of `self._request_semaphore.release()` calls
it made (the `finally` block), and whether an exception escaped the
method (a failing `mark_error`, or a `CancelledError` — both are
absorbed by `run()`'s `gather(..., return_exceptions=True)` and never
reach a sibling task). -/
structure ReqResult where
  succInc : Nat
  failedInc : Nat
  charsInc : Nat
  timeInc : ℚ
  ops : List SinkOp
  semRel : Nat
  raised : Bool
deriving DecidableEq, Repr

/-- `Job.process_request` (`src/services/worker/job/processor.py`,
lines 48-98) on a request the executor never hard-cancels.  The
`if self._is_cancelled: break` check inside the `async for` loop is
unreachable in every execution of the program: `_is_cancelled` is only
ever set by `cancel()` (directly or from `run()`'s `except` block),
which immediately and without an intervening `await` calls
`task.cancel()` on every still-active task, so no task resumes between
the flag being set and its own hard cancellation (hard-cancelled tasks
are modelled by `runReq` below).  On the success path the metrics
(`successful_requests`, `total_chars_generated`,
`total_processing_time`) are incremented and `finalize_result` is
called; on `except Exception` only `failed_requests` is incremented
(chars and time are updated on the success path alone) and
`mark_error` is awaited — when that write itself raises, the request
is already counted failed, no `Failed` record exists in the sink, and
the exception escapes the method; the `finally` block releases the
semaphore once on every one of these paths. -/
def process_request (env : ReqEnv) : ReqResult :=
  match env with
  | ReqEnv.ok frags t =>
    ⟨1, 0, frags, t,
      SinkOp.init :: List.replicate frags SinkOp.append ++ [SinkOp.finalize], 1, false⟩
  | ReqEnv.initFail _ me =>
    if me then ⟨0, 1, 0, 0, [SinkOp.markError], 1, false⟩
    else ⟨0, 1, 0, 0, [], 1, true⟩
  | ReqEnv.genFail before _ me =>
    if me then
      ⟨0, 1, 0, 0,
        SinkOp.init :: List.replicate before SinkOp.append ++ [SinkOp.markError], 1, false⟩
    else ⟨0, 1, 0, 0, SinkOp.init :: List.replicate before SinkOp.append, 1, true⟩
  | ReqEnv.sinkFail before _ me =>
    if me then
      ⟨0, 1, 0, 0,
        SinkOp.init :: List.replicate before SinkOp.append ++ [SinkOp.markError], 1, false⟩
    else ⟨0, 1, 0, 0, SinkOp.init :: List.replicate before SinkOp.append, 1, true⟩
  | ReqEnv.finalizeFail frags _ t me =>
    if me then
      ⟨1, 1, frags, t,
        SinkOp.init :: List.replicate frags SinkOp.append ++ [SinkOp.markError], 1, false⟩
    else ⟨1, 1, frags, t, SinkOp.init :: List.replicate frags SinkOp.append, 1, true⟩

/-- Fate of one launched per-request task with respect to
`Job.cancel()` (`processor.py` lines 173-186), which sets
`_is_cancelled` and then synchronously calls `task.cancel()` on every
still-active task: `ran` = the task finished (success or handled
failure) before cancellation, or no cancellation occurred; `hardPre` =
the task was created by the dispatch loop but cancelled before its
first step, so the body of `process_request` — including the
`try/finally` and its semaphore release — never runs at all; `hardMid
w` = the task was suspended at an `await` after `w` sink writes had
completed and resumes with `CancelledError`, which, being a
`BaseException`, skips `except Exception` (no metrics, no
`mark_error`) but still runs the `finally` release. -/
inductive Fate where
  | ran
  | hardPre
  | hardMid (w : Nat)
deriving DecidableEq, Repr

/-- The sink writes completed by a task hard-cancelled after `w`
writes: a prefix of the request's normal write sequence
(`initialize_result` then the appends its environment allows). -/
def sinkPrefix (env : ReqEnv) (w : Nat) : List SinkOp :=
  (SinkOp.init :: List.replicate (appendBudget env) SinkOp.append).take w

/-- One launched per-request task under its cancellation fate. -/
def runReq (env : ReqEnv) (f : Fate) : ReqResult :=
  match f with
  | Fate.ran => process_request env
  | Fate.hardPre => ⟨0, 0, 0, 0, [], 0, true⟩
  | Fate.hardMid w => ⟨0, 0, 0, 0, sinkPrefix env w, 1, true⟩

/-- A cancellation scenario of one `run()` execution in which
`cancel()` was called at some point: `loopSees` is the dispatch-loop
index at which the post-acquire `if self._is_cancelled` check first
sees the flag (`none` when the loop launched everything before the
flag was set), and `fate i` is what the hard cancellation did to the
`i`-th launched task.  An execution without cancellation is
`(none : Option CancelInfo)`. -/
structure CancelInfo where
  loopSees : Option Nat
  fate : Nat → Fate

/-- Fate of the `i`-th launched task: without cancellation every task
runs to completion. -/
def fateOf (sc : Option CancelInfo) (i : Nat) : Fate :=
  match sc with
  | none => Fate.ran
  | some ci => ci.fate i

/-- Number of requests the dispatch loop of `run()` launches: all of
them unless the post-acquire check breaks at index `loopSees`. -/
def launchedCount (n : Nat) (sc : Option CancelInfo) : Nat :=
  match sc with
  | none => n
  | some ci =>
    match ci.loopSees with
    | none => n
    | some k => min k n

/-- Number of `release()` calls the dispatch loop itself makes: one
when the post-acquire check observes the flag and breaks (`if
self._is_cancelled: self._request_semaphore.release(); break`). -/
def loopReleases (n : Nat) (sc : Option CancelInfo) : Nat :=
  match sc with
  | none => 0
  | some ci =>
    match ci.loopSees with
    | none => 0
    | some k => if k < n then 1 else 0

/-- Per-request results of the launched prefix, by launch index. -/
def launchedResults (sc : Option CancelInfo) : Nat → List ReqEnv → List ReqResult
  | _, [] => []
  | i, env :: rest => runReq env (fateOf sc i) :: launchedResults sc (i + 1) rest

/-- The final-status computation at the end of `Job.run` (lines
149-157): `CANCELLED` when the flag is set, else `FAILED` when every
request failed, else `PARTIALLY_COMPLETED` when some did, else
`COMPLETED`. -/
def finalStatus (cancelled : Bool) (failed total : Nat) : JobStatus :=
  if cancelled then JobStatus.cancelled
  else if 0 < failed then
    (if failed = total then JobStatus.failed else JobStatus.partiallyCompleted)
  else JobStatus.completed

/-- Result of one `Job.run()` execution: the final metrics, the
terminal status, the per-request sink-operation logs of the launched
requests (by launch order), the total numbers of semaphore `acquire()`
and `release()` calls made during the execution, and the `error` field
of the returned `JobResult`. -/
structure RunResult where
  metrics : JobMetrics
  status : JobStatus
  sinkOps : List (List SinkOp)
  semAcquires : Nat
  semReleases : Nat
  error : Option String
deriving DecidableEq, Repr

/-- The metrics a `Job` is constructed with:
`JobMetrics(total_requests=len(requests))`, every counter zero. -/
def initMetrics (n : Nat) : JobMetrics :=
  ⟨n, 0, 0, 0, 0⟩

/-- The body of `Job.run` (lines 100-171) for a batch of request
environments `envs` under cancellation scenario `sc`, starting from
the metrics object `m0` the job currently holds (`self.metrics`
persists on the object and is never reset).  The dispatch loop
acquires one semaphore unit per iteration, breaks (releasing the
just-acquired unit) when the post-acquire check observes the
cancellation flag, and otherwise launches a `process_request` task
whose effect is determined by its environment and its cancellation
fate; the per-request tasks contribute their metric increments, sink
operations and semaphore releases; the final status is computed from
the flag and the accumulated `failed_requests` against
`total_requests`.  Nothing in the modelled loop raises, so the
`except` branch of `run` (orchestration error) is unreachable here
and `error` is `none`. -/
def runBodyFrom (m0 : JobMetrics) (envs : List ReqEnv) (sc : Option CancelInfo) :
    RunResult :=
  let n := envs.length
  let results := launchedResults sc 0 (envs.take (launchedCount n sc))
  let m : JobMetrics :=
    { total_requests := m0.total_requests
      successful_requests :=
        m0.successful_requests + (results.map ReqResult.succInc).sum
      failed_requests := m0.failed_requests + (results.map ReqResult.failedInc).sum
      total_chars_generated :=
        m0.total_chars_generated + (results.map ReqResult.charsInc).sum
      total_processing_time :=
        m0.total_processing_time + (results.map ReqResult.timeInc).sum }
  { metrics := m
    status := finalStatus sc.isSome m.failed_requests m.total_requests
    sinkOps := results.map ReqResult.ops
    semAcquires := launchedCount n sc + loopReleases n sc
    semReleases := loopReleases n sc + (results.map ReqResult.semRel).sum
    error := none }

/-- A first `run()` of a freshly constructed `Job`:
`self.metrics = JobMetrics(total_requests=len(requests))`. -/
def runBody (envs : List ReqEnv) (sc : Option CancelInfo) : RunResult :=
  runBodyFrom (initMetrics envs.length) envs sc

/-- The mutable state a `Job` object carries between `run()` calls:
the `_is_running` guard flag and the `self.metrics` object, which is
created in `__init__` and never reset. -/
structure JobState where
  is_running : Bool
  metrics : JobMetrics
deriving DecidableEq, Repr

/-- `Job.run` including its entry guard: `if self._is_running: raise
RuntimeError("Job is already running")`; otherwise the body executes
from the metrics the object currently holds, and the `finally` block
resets `self._is_running = False` before the method returns while the
accumulated metrics stay on the object. -/
def runJob (st : JobState) (envs : List ReqEnv) (sc : Option CancelInfo) :
    Except String (RunResult × JobState) :=
  if st.is_running then Except.error "Job is already running"
  else
    let r := runBodyFrom st.metrics envs sc
    Except.ok (r, ⟨false, r.metrics⟩)

/-- The state of a freshly constructed `Job`. -/
def initJobState (envs : List ReqEnv) : JobState :=
  ⟨false, initMetrics envs.length⟩

/-- Two sequential uncancelled `run()` calls on the same `Job` object:
the second call starts from the `_is_running` flag and the metrics
object the first call left behind.  Returns the second call's
result. -/
def runTwice (envs : List ReqEnv) : Except String RunResult :=
  match runJob (initJobState envs) envs none with
  | Except.error e => Except.error e
  | Except.ok (_, st1) =>
    match runJob st1 envs none with
    | Except.error e => Except.error e
    | Except.ok (r, _) => Except.ok r

end Worker

namespace Queued

/-- Environment behaviour of one request under
`PromptProcessor.process_prompt`
(`src/src/processor/prompt_processor.py`): either the generator yields
`frags` fragments and every `append_response` succeeds, or an
exception fires after `before` fragments were appended. -/
inductive PEnv where
  | ok (frags : Nat)
  | fail (before : Nat) (msg : String)
deriving DecidableEq, Repr

/-- Final sink record of one request written through the data
interactor: fragments appended so far, and either status `COMPLETED`
(`set_status`) or the error text (`write_error`). -/
structure PromptOut where
  chars : Nat
  errorWritten : Option String
  result : Except String Unit
deriving Repr

/-- `PromptProcessor.process_prompt`: append each fragment, then
`set_status(COMPLETED)`; on exception, `write_error` the message and
re-raise (`raise` at the end of the `except` block). -/
def process_prompt (env : PEnv) : PromptOut :=
  match env with
  | PEnv.ok frags => ⟨frags, none, Except.ok ()⟩
  | PEnv.fail before msg => ⟨before, some msg, Except.error msg⟩

/-- `asyncio.gather` without `return_exceptions=True`, as used by
`process_batch`: the first raised exception propagates to the caller. -/
def gatherStrict : List (Except String Unit) → Except String Unit
  | [] => Except.ok ()
  | Except.error e :: _ => Except.error e
  | Except.ok _ :: rest => gatherStrict rest

/-- `process_batch` of `src/src/job/processor.py` (lines 42-62):
each request runs `process_with_logging`, which calls `process_prompt`
and re-raises any exception; the results are gathered without
`return_exceptions=True`, so a single request failure propagates out
of the batch-level call.  Returns the batch-level outcome together
with the per-request sink records. -/
def process_batch (envs : List PEnv) : Except String Unit × List PromptOut :=
  let outs := envs.map process_prompt
  (gatherStrict (outs.map PromptOut.result), outs)

end Queued

namespace Batching

/-- Case analysis of `purge`: it either leaves the state unchanged and
dispatches nothing, or clears an existing batch and dispatches its
requests; it never raises. -/
theorem purge_spec (s : ManagerState) (now : Int) :
    purge s now = Except.ok (s, (none : Option (List JobRequest))) ∨
    ∃ b, s.batch = some b ∧
      purge s now = Except.ok ({ s with batch := none }, some b.requests) := by
  obtain ⟨w, m, ob⟩ := s
  cases ob with
  | none => exact Or.inl rfl
  | some b =>
    by_cases h1 : w ≤ now - b.created_at
    · exact Or.inr ⟨b, rfl, by simp [purge, h1]⟩
    · by_cases h2 : m ≤ b.requests.length
      · exact Or.inr ⟨b, rfl, by simp [purge, batchIsFull, batchSize, h1, h2]⟩
      · exact Or.inl (by simp [purge, batchIsFull, batchSize, h1, h2])

theorem pendingOf_batch_none {s : ManagerState} (h : s.batch = none) :
    pendingOf s = [] := by
  simp [pendingOf, h]

theorem pendingOf_batch_some {s : ManagerState} {b : Batch} (h : s.batch = some b) :
    pendingOf s = b.requests := by
  simp [pendingOf, h]

theorem addToBatch_pending (s : ManagerState) (r : JobRequest) (now : Int) :
    pendingOf (addToBatch s r now) = pendingOf s ++ [r] := by
  obtain ⟨w, m, ob⟩ := s
  cases ob <;> simp [addToBatch, pendingOf]

/-- `purge` never raises. -/
theorem purge_ne_error (s : ManagerState) (now : Int) (msg : String) :
    purge s now ≠ Except.error msg := by
  rcases purge_spec s now with h | ⟨b, hb, h⟩ <;> simp [h]

/-- Conservation across one `purge`: the dispatched requests followed
by the requests still pending equal the previously pending requests. -/
theorem purge_conserve (s : ManagerState) (now : Int) (s' : ManagerState)
    (d : Option (List JobRequest)) (h : purge s now = Except.ok (s', d)) :
    d.toList.flatten ++ pendingOf s' = pendingOf s := by
  rcases purge_spec s now with h0 | ⟨b, hb, h0⟩ <;> rw [h0] at h <;>
    simp only [Except.ok.injEq, Prod.mk.injEq] at h
  · obtain ⟨rfl, rfl⟩ := h
    simp
  · obtain ⟨rfl, rfl⟩ := h
    simp [pendingOf, hb]

/-- Conservation across one event step: the requests dispatched by the
step followed by the requests still pending equal the previously
pending requests followed by the requests the step accepted. -/
theorem stepEv_conserve (s : ManagerState) (e : Event) :
    (stepEv s e).2.flatten ++ pendingOf (stepEv s e).1 =
      pendingOf s ++ acceptedOf [e] := by
  cases e with
  | tick now =>
    cases hpp : purge s now with
    | error msg => exact absurd hpp (purge_ne_error s now msg)
    | ok p =>
      obtain ⟨s1, d1⟩ := p
      have hc := purge_conserve s now s1 d1 hpp
      simpa [stepEv, hpp, acceptedOf] using hc
  | req rid prompt now =>
    cases hpp : purge s now with
    | error msg => exact absurd hpp (purge_ne_error s now msg)
    | ok p =>
      obtain ⟨s1, d1⟩ := p
      have hc1 := purge_conserve s now s1 d1 hpp
      by_cases hprompt : prompt = ""
      · simpa [stepEv, processRequest, hpp, hprompt, acceptedOf] using hc1
      · cases hpp2 : purge (addToBatch s1 (⟨rid, prompt⟩ : JobRequest) now) now with
        | error msg => exact absurd hpp2 (purge_ne_error _ now msg)
        | ok q =>
          obtain ⟨s3, d2⟩ := q
          have hc2 := purge_conserve _ now s3 d2 hpp2
          simp only [stepEv, processRequest, hpp, if_neg hprompt, hpp2,
            acceptedOf, List.flatten_append, List.append_assoc, List.append_nil]
          rw [hc2, addToBatch_pending, ← List.append_assoc, hc1]

theorem acceptedOf_cons (e : Event) (es : List Event) :
    acceptedOf (e :: es) = acceptedOf [e] ++ acceptedOf es := by
  cases e <;> simp [acceptedOf]

/-- Conservation across a whole trace. -/
theorem runTrace_conserve (tr : List Event) :
    ∀ s : ManagerState,
      (runTrace s tr).2.flatten ++ pendingOf (runTrace s tr).1 =
        pendingOf s ++ acceptedOf tr := by
  induction tr with
  | nil => intro s; simp [runTrace, acceptedOf]
  | cons e es ih =>
    intro s
    have hstep := stepEv_conserve s e
    have hrest := ih (stepEv s e).1
    simp only [runTrace, List.flatten_append, List.append_assoc]
    rw [hrest, ← List.append_assoc, hstep, List.append_assoc]
    exact congrArg (pendingOf s ++ ·) (acceptedOf_cons e es).symm

theorem close_flatten (s : ManagerState) : (close s).flatten = pendingOf s := by
  obtain ⟨w, m, ob⟩ := s
  cases ob with
  | none => simp [close, pendingOf]
  | some b =>
    by_cases h : b.requests.isEmpty
    · simp [close, pendingOf, h, List.isEmpty_iff.mp h]
    · simp [close, pendingOf, h]

theorem countP_mem_of_sum_zero (L : List (List JobRequest)) (r : JobRequest)
    (h : (L.map (List.count r)).sum = 0) :
    L.countP (fun b => decide (r ∈ b)) = 0 := by
  induction L with
  | nil => rfl
  | cons b L ih =>
    simp only [List.map_cons, List.sum_cons] at h
    have hb : List.count r b = 0 := by omega
    have hL : (L.map (List.count r)).sum = 0 := by omega
    have hnot : r ∉ b := List.count_eq_zero.mp hb
    simp [List.countP_cons, hnot, ih hL]

theorem countP_mem_of_sum_one (L : List (List JobRequest)) (r : JobRequest)
    (h : (L.map (List.count r)).sum = 1) :
    L.countP (fun b => decide (r ∈ b)) = 1 := by
  induction L with
  | nil => simp at h
  | cons b L ih =>
    simp only [List.map_cons, List.sum_cons] at h
    by_cases hb : List.count r b = 0
    · have hnot : r ∉ b := List.count_eq_zero.mp hb
      have hL : (L.map (List.count r)).sum = 1 := by omega
      simp [List.countP_cons, hnot, ih hL]
    · have hmem : r ∈ b := List.count_pos_iff.mp (Nat.pos_of_ne_zero hb)
      have hL : (L.map (List.count r)).sum = 0 := by omega
      have hone : List.count r b = 1 := by omega
      simp [List.countP_cons, hmem, countP_mem_of_sum_zero L r hL]

end Batching

/-- C7: `purge` seals, dispatches and removes the current batch if and
only if a current batch exists and either the size trigger
(`len(requests) >= max_requests_per_job`) or the age trigger
(`now - created_at >= batch_window`) holds; in every other state it
returns nothing and leaves the state unchanged. -/
theorem claim_C7 (s : Batching.ManagerState) (now : Int) :
    (∃ b, s.batch = some b ∧
        (s.batch_window ≤ now - b.created_at ∨
          s.max_requests_per_job ≤ b.requests.length) ∧
        Batching.purge s now =
          Except.ok ({ s with batch := none }, some b.requests)) ∨
    (Batching.purge s now = Except.ok (s, none) ∧
      ∀ b, s.batch = some b →
        now - b.created_at < s.batch_window ∧
          b.requests.length < s.max_requests_per_job) := by
  obtain ⟨w, m, ob⟩ := s
  cases ob with
  | none =>
    refine Or.inr ⟨rfl, ?_⟩
    intro b hb
    exact Option.noConfusion hb
  | some b =>
    by_cases h1 : w ≤ now - b.created_at
    · exact Or.inl ⟨b, rfl, Or.inl h1, by simp [Batching.purge, h1]⟩
    · by_cases h2 : m ≤ b.requests.length
      · refine Or.inl ⟨b, rfl, Or.inr h2, ?_⟩
        simp [Batching.purge, Batching.batchIsFull, Batching.batchSize, h1, h2]
      · refine Or.inr ⟨?_, ?_⟩
        · simp [Batching.purge, Batching.batchIsFull, Batching.batchSize, h1, h2]
        · intro b' hb'
          injection hb' with hbb
          subst hbb
          refine ⟨?_, ?_⟩ <;> · dsimp only; omega

/-- C7 witness: `purge` at a concrete aged single-request batch. -/
theorem claim_C7_witness :
    (∃ b, (⟨250, 4, some ⟨[⟨1, "p"⟩], 0⟩⟩ : Batching.ManagerState).batch = some b ∧
        ((250 : Int) ≤ 300 - b.created_at ∨ 4 ≤ b.requests.length) ∧
        Batching.purge ⟨250, 4, some ⟨[⟨1, "p"⟩], 0⟩⟩ 300 =
          Except.ok (⟨250, 4, none⟩, some b.requests)) ∨
    (Batching.purge ⟨250, 4, some ⟨[⟨1, "p"⟩], 0⟩⟩ 300 =
        Except.ok (⟨250, 4, some ⟨[⟨1, "p"⟩], 0⟩⟩, none) ∧
      ∀ b, (⟨250, 4, some ⟨[⟨1, "p"⟩], 0⟩⟩ : Batching.ManagerState).batch = some b →
        300 - b.created_at < 250 ∧ b.requests.length < 4) :=
  claim_C7 ⟨250, 4, some ⟨[⟨1, "p"⟩], 0⟩⟩ 300

/-- C9: calling `purge` when no current batch exists returns without
dispatching and without raising: the early return makes the
`None >= int` comparison inside `_batch_is_full` (which would raise
`TypeError`) unreachable from `purge`, even though `_batch_is_full`
itself does raise on such a state. -/
theorem claim_C9 (s : Batching.ManagerState) (now : Int) (h : s.batch = none) :
    Batching.purge s now = Except.ok (s, none) ∧
    Batching.batchIsFull s =
      Except.error "TypeError: >= not supported between NoneType and int" ∧
    ∀ (s2 : Batching.ManagerState) (now2 : Int) (msg : String),
      Batching.purge s2 now2 ≠ Except.error msg := by
  obtain ⟨w, m, ob⟩ := s
  have hob : ob = none := h
  subst hob
  exact ⟨rfl, rfl, fun s2 now2 msg => Batching.purge_ne_error s2 now2 msg⟩

/-- C9 witness: a fresh manager with no current batch. -/
theorem claim_C9_witness :
    Batching.purge (Batching.initState 250 4) 0 =
      Except.ok (Batching.initState 250 4, none) ∧
    Batching.batchIsFull (Batching.initState 250 4) =
      Except.error "TypeError: >= not supported between NoneType and int" ∧
    ∀ (s2 : Batching.ManagerState) (now2 : Int) (msg : String),
      Batching.purge s2 now2 ≠ Except.error msg :=
  claim_C9 (Batching.initState 250 4) 0 rfl

/-- C3: a below-size current batch is sealed and dispatched by a purge
tick (the periodic purge of `src/src/main.py`) once its age reaches the
window, with no further arrival needed; and in the spec scenario
(`batchWindow=250`, `maxRequestsPerBatch=4`, two requests, then a tick
at 260 with no further arrivals) the two arrivals alone dispatch
nothing while the tick dispatches exactly one batch of size 2. -/
theorem claim_C3 :
    (∀ (s : Batching.ManagerState) (b : Batching.Batch) (now : Int),
        s.batch = some b → s.batch_window ≤ now - b.created_at →
        Batching.stepEv s (Batching.Event.tick now) =
          ({ s with batch := none }, [b.requests])) ∧
    (Batching.runTrace (Batching.initState 250 4)
        [Batching.Event.req 1 "p1" 0, Batching.Event.req 2 "p2" 10]).2 = [] ∧
    (Batching.runTrace (Batching.initState 250 4)
        [Batching.Event.req 1 "p1" 0, Batching.Event.req 2 "p2" 10,
          Batching.Event.tick 260]).2 = [[⟨1, "p1"⟩, ⟨2, "p2"⟩]] := by
  refine ⟨?_, by decide, by decide⟩
  intro s b now hb hw
  obtain ⟨w, m, ob⟩ := s
  cases ob with
  | none => exact Option.noConfusion hb
  | some b' =>
    injection hb with hbb
    subst hbb
    simp [Batching.stepEv, Batching.purge, hw]

/-- C3 witness: the age trigger fired by a tick on a concrete state. -/
theorem claim_C3_witness :
    Batching.stepEv ⟨250, 4, some ⟨[⟨1, "p"⟩], 0⟩⟩ (Batching.Event.tick 300) =
      (⟨250, 4, none⟩, [[⟨1, "p"⟩]]) :=
  claim_C3.1 ⟨250, 4, some ⟨[⟨1, "p"⟩], 0⟩⟩ ⟨[⟨1, "p"⟩], 0⟩ 300 rfl (by decide)

/-- C4: over any finite trace of arrivals and purge ticks followed by
`close`, the dispatched batches concatenate to exactly the accepted
requests in order (no loss, no duplication), and a request accepted
exactly once belongs to exactly one dispatched batch. -/
theorem claim_C4 (w : Int) (m : Nat) (tr : List Batching.Event) :
    ((Batching.runTrace (Batching.initState w m) tr).2 ++
        Batching.close (Batching.runTrace (Batching.initState w m) tr).1).flatten =
      Batching.acceptedOf tr ∧
    ∀ r : Batching.JobRequest, (Batching.acceptedOf tr).count r = 1 →
      ((Batching.runTrace (Batching.initState w m) tr).2 ++
          Batching.close (Batching.runTrace (Batching.initState w m) tr).1).countP
        (fun b => decide (r ∈ b)) = 1 := by
  have h1 : ((Batching.runTrace (Batching.initState w m) tr).2 ++
      Batching.close (Batching.runTrace (Batching.initState w m) tr).1).flatten =
      Batching.acceptedOf tr := by
    rw [List.flatten_append, Batching.close_flatten]
    have hc := Batching.runTrace_conserve tr (Batching.initState w m)
    simpa [Batching.pendingOf, Batching.initState] using hc
  refine ⟨h1, ?_⟩
  intro r hr
  apply Batching.countP_mem_of_sum_one
  rw [← List.count_flatten, h1]
  exact hr

/-- C4 witness: the shutdown-flush scenario — one pending request in a
not-yet-ready batch is dispatched as exactly one final batch. -/
theorem claim_C4_witness :
    ((Batching.runTrace (Batching.initState 250 4)
        [Batching.Event.req 1 "p1" 0]).2 ++
      Batching.close (Batching.runTrace (Batching.initState 250 4)
        [Batching.Event.req 1 "p1" 0]).1).countP
      (fun b => decide ((⟨1, "p1"⟩ : Batching.JobRequest) ∈ b)) = 1 :=
  (claim_C4 250 4 [Batching.Event.req 1 "p1" 0]).2 ⟨1, "p1"⟩ (by decide)

namespace Worker

theorem statusOfOps_append_one (l : List SinkOp) (op : SinkOp) :
    statusOfOps (l ++ [op]) = applyOp (statusOfOps l) op := by
  simp [statusOfOps, List.foldl_append]

theorem foldl_applyOp_replicate (st : SinkStatus) (n : Nat) :
    List.foldl applyOp st (List.replicate n SinkOp.append) = st := by
  induction n with
  | zero => rfl
  | succ k ih => simpa [List.replicate_succ, applyOp] using ih

theorem statusOfOps_stream (c : Nat) (op : SinkOp) :
    statusOfOps (SinkOp.init :: List.replicate c SinkOp.append ++ [op]) =
      applyOp SinkStatus.inProgressS op := by
  have h : SinkOp.init :: List.replicate c SinkOp.append ++ [op] =
      (SinkOp.init :: List.replicate c SinkOp.append) ++ [op] := by simp
  rw [h, statusOfOps_append_one]
  simp [statusOfOps, applyOp, foldl_applyOp_replicate]

theorem statusOfOps_noTerminal (c : Nat) :
    statusOfOps (SinkOp.init :: List.replicate c SinkOp.append) =
      SinkStatus.inProgressS := by
  show List.foldl applyOp SinkStatus.absent
      (SinkOp.init :: List.replicate c SinkOp.append) = _
  rw [List.foldl_cons]
  exact foldl_applyOp_replicate _ c

/-- Every exit path through the body of `process_request` releases the
semaphore exactly once (the `finally` block). -/
theorem process_request_semRel (env : ReqEnv) :
    (process_request env).semRel = 1 := by
  cases env <;> simp only [process_request] <;> (try split) <;> rfl

theorem process_request_failedInc_le (env : ReqEnv) :
    (process_request env).failedInc ≤ 1 := by
  cases env <;> simp only [process_request] <;> (try split) <;> simp

/-- A failing request is always counted in `failed_requests`; the
`mark_error` write gives it a `Failed` sink record exactly when that
write succeeds, and the exception escapes the method exactly when it
does not. -/
theorem process_request_fail_spec (env : ReqEnv) (me : Bool)
    (h : markErrorOutcome env = some me) :
    (process_request env).failedInc = 1 ∧
    (process_request env).raised = !me ∧
    (statusOfOps (process_request env).ops = SinkStatus.failedS ↔ me = true) := by
  cases env with
  | ok f t => simp [markErrorOutcome] at h
  | initFail msg me' =>
    simp only [markErrorOutcome, Option.some.injEq] at h
    subst h
    cases me' <;>
      simp [process_request, statusOfOps, applyOp, List.foldl_append,
        foldl_applyOp_replicate]
  | genFail b msg me' =>
    simp only [markErrorOutcome, Option.some.injEq] at h
    subst h
    cases me' <;>
      simp [process_request, statusOfOps, applyOp, List.foldl_append,
        foldl_applyOp_replicate]
  | sinkFail b msg me' =>
    simp only [markErrorOutcome, Option.some.injEq] at h
    subst h
    cases me' <;>
      simp [process_request, statusOfOps, applyOp, List.foldl_append,
        foldl_applyOp_replicate]
  | finalizeFail f msg t me' =>
    simp only [markErrorOutcome, Option.some.injEq] at h
    subst h
    cases me' <;>
      simp [process_request, statusOfOps, applyOp, List.foldl_append,
        foldl_applyOp_replicate]

theorem process_request_ok_spec (env : ReqEnv) (h : markErrorOutcome env = none) :
    (process_request env).failedInc = 0 ∧
    (process_request env).raised = false ∧
    statusOfOps (process_request env).ops = SinkStatus.completedS := by
  cases env with
  | ok f t =>
    refine ⟨rfl, rfl, ?_⟩
    simp [process_request, statusOfOps, applyOp, List.foldl_append,
      foldl_applyOp_replicate]
  | initFail msg me => simp [markErrorOutcome] at h
  | genFail b msg me => simp [markErrorOutcome] at h
  | sinkFail b msg me => simp [markErrorOutcome] at h
  | finalizeFail f msg t me => simp [markErrorOutcome] at h

/-- A counted failure whose `mark_error` write succeeded is visible in
the sink as `Failed`. -/
theorem process_request_failed_status (env : ReqEnv)
    (h1 : (process_request env).failedInc = 1)
    (h2 : markErrorOutcome env ≠ some false) :
    statusOfOps (process_request env).ops = SinkStatus.failedS := by
  cases hme : markErrorOutcome env with
  | none =>
    have h0 := (process_request_ok_spec env hme).1
    exact absurd (h0.symm.trans h1) (by decide)
  | some me =>
    cases me with
    | false => exact absurd hme h2
    | true => exact (process_request_fail_spec env true hme).2.2.mpr rfl

theorem dropLast_stream (c : Nat) (op0 : SinkOp) :
    (SinkOp.init :: List.replicate c SinkOp.append ++ [op0]).dropLast =
      SinkOp.init :: List.replicate c SinkOp.append := by
  show ((SinkOp.init :: List.replicate c SinkOp.append) ++ [op0]).dropLast = _
  exact List.dropLast_concat

/-- Dropping the last sink operation of any per-request task — however
it ended, including hard cancellation — leaves only `init` and
`append` operations: the terminal operation, when one exists at all,
is the last thing written, so a poller never observes a transition out
of `Completed` or `Failed`. -/
theorem runReq_dropLast (env : ReqEnv) (f : Fate) :
    ∀ op ∈ (runReq env f).ops.dropLast,
      op = SinkOp.init ∨ op = SinkOp.append := by
  have hmem : ∀ (c : Nat) (op : SinkOp),
      op ∈ SinkOp.init :: List.replicate c SinkOp.append →
      op = SinkOp.init ∨ op = SinkOp.append := by
    intro c op hop
    rcases List.mem_cons.mp hop with h | h
    · exact Or.inl h
    · exact Or.inr (List.eq_of_mem_replicate h)
  cases f with
  | hardPre => intro op hop; simp [runReq] at hop
  | hardMid w =>
    intro op hop
    have h1 : op ∈ (SinkOp.init ::
        List.replicate (appendBudget env) SinkOp.append).take w :=
      List.Sublist.mem hop (List.dropLast_sublist _)
    exact hmem _ op (List.Sublist.mem h1 (List.take_sublist w _))
  | ran =>
    cases env <;> simp only [runReq, process_request] <;> (try split) <;> intro op hop <;>
      first
        | (rw [dropLast_stream] at hop; exact hmem _ op hop)
        | exact hmem _ op (List.Sublist.mem hop (List.dropLast_sublist _))
        | simp at hop

theorem launchedResults_length (sc : Option CancelInfo) :
    ∀ (i : Nat) (l : List ReqEnv), (launchedResults sc i l).length = l.length := by
  intro i l
  induction l generalizing i with
  | nil => rfl
  | cons e rest ih => simp [launchedResults, ih]

theorem launchedResults_getElem? (sc : Option CancelInfo) :
    ∀ (l : List ReqEnv) (i j : Nat),
      (launchedResults sc i l)[j]? =
        (l[j]?).map (fun e => runReq e (fateOf sc (i + j))) := by
  intro l
  induction l with
  | nil => intro i j; simp [launchedResults]
  | cons e rest ih =>
    intro i j
    cases j with
    | zero => simp [launchedResults]
    | succ k =>
      simp only [launchedResults, List.getElem?_cons_succ]
      rw [ih (i + 1) k]
      have harith : i + 1 + k = i + (k + 1) := by omega
      rw [harith]

theorem launchedResults_mem (sc : Option CancelInfo) :
    ∀ (i : Nat) (l : List ReqEnv) (r : ReqResult), r ∈ launchedResults sc i l →
      ∃ env j, env ∈ l ∧ r = runReq env (fateOf sc j) := by
  intro i l
  induction l generalizing i with
  | nil => intro r hr; simp [launchedResults] at hr
  | cons e rest ih =>
    intro r hr
    rcases List.mem_cons.mp hr with h | h
    · exact ⟨e, i, List.mem_cons_self e rest, h⟩
    · obtain ⟨env, j, hmem, heq⟩ := ih (i + 1) r h
      exact ⟨env, j, List.mem_cons_of_mem e hmem, heq⟩

theorem runReq_semRel_le_one (env : ReqEnv) (f : Fate) :
    (runReq env f).semRel ≤ 1 := by
  cases f <;> simp [runReq, process_request_semRel]

theorem runReq_semRel_of_ne (env : ReqEnv) (f : Fate) (h : f ≠ Fate.hardPre) :
    (runReq env f).semRel = 1 := by
  cases f with
  | ran => simp [runReq, process_request_semRel]
  | hardPre => exact absurd rfl h
  | hardMid w => rfl

theorem runReq_failedInc_le (env : ReqEnv) (f : Fate) :
    (runReq env f).failedInc ≤ 1 := by
  cases f <;> simp [runReq, process_request_failedInc_le]

theorem launchedResults_sum_semRel_le (sc : Option CancelInfo) :
    ∀ (i : Nat) (l : List ReqEnv),
      ((launchedResults sc i l).map ReqResult.semRel).sum ≤ l.length := by
  intro i l
  induction l generalizing i with
  | nil => exact Nat.le_refl 0
  | cons e rest ih =>
    have h1 := runReq_semRel_le_one e (fateOf sc i)
    have h2 := ih (i + 1)
    simp only [launchedResults, List.map_cons, List.sum_cons, List.length_cons]
    omega

theorem launchedResults_sum_semRel_eq (sc : Option CancelInfo) :
    ∀ (i : Nat) (l : List ReqEnv),
      (∀ k, k < l.length → fateOf sc (i + k) ≠ Fate.hardPre) →
      ((launchedResults sc i l).map ReqResult.semRel).sum = l.length := by
  intro i l
  induction l generalizing i with
  | nil => intro _; rfl
  | cons e rest ih =>
    intro h
    have h0 : fateOf sc i ≠ Fate.hardPre := by
      have := h 0 (by simp)
      simpa using this
    have hrest : ∀ k, k < rest.length → fateOf sc (i + 1 + k) ≠ Fate.hardPre := by
      intro k hk
      have harith : i + 1 + k = i + (k + 1) := by omega
      rw [harith]
      exact h (k + 1) (by simpa using Nat.succ_lt_succ hk)
    simp only [launchedResults, List.map_cons, List.sum_cons, List.length_cons,
      runReq_semRel_of_ne e _ h0, ih (i + 1) hrest]
    omega

theorem launchedCount_le (n : Nat) (sc : Option CancelInfo) :
    launchedCount n sc ≤ n := by
  cases sc with
  | none => exact Nat.le_refl n
  | some ci =>
    obtain ⟨ls, ro⟩ := ci
    cases ls with
    | none => exact Nat.le_refl n
    | some k => exact Nat.min_le_right k n

theorem sum_map_le_length {α : Type} (f : α → Nat) (l : List α)
    (h : ∀ x ∈ l, f x ≤ 1) : (l.map f).sum ≤ l.length := by
  induction l with
  | nil => simp
  | cons a rest ih =>
    have ha := h a (List.mem_cons_self a rest)
    have hr := ih (fun x hx => h x (List.mem_cons_of_mem a hx))
    simp only [List.map_cons, List.sum_cons, List.length_cons]
    omega

theorem all_eq_one_of_sum_eq_length {α : Type} (f : α → Nat) (l : List α)
    (h : ∀ x ∈ l, f x ≤ 1) (hs : (l.map f).sum = l.length) :
    ∀ x ∈ l, f x = 1 := by
  induction l with
  | nil => intro x hx; simp at hx
  | cons a rest ih =>
    have ha := h a (List.mem_cons_self a rest)
    have hrest : ∀ x ∈ rest, f x ≤ 1 := fun x hx => h x (List.mem_cons_of_mem a hx)
    have hle := sum_map_le_length f rest hrest
    simp only [List.map_cons, List.sum_cons, List.length_cons] at hs
    have hfa : f a = 1 := by omega
    have hsum : (rest.map f).sum = rest.length := by omega
    intro x hx
    rcases List.mem_cons.mp hx with h' | h'
    · exact h' ▸ hfa
    · exact ih hrest hsum x h'

end Worker

/-- C1: for a batch of size `K > 0` whose `run()` finishes without an
orchestration error (the modelled loop cannot raise) and without
cancellation, the outcome status is `Failed` when
`failed_requests == K`, `PartiallyCompleted` when
`0 < failed_requests < K`, and `Completed` when `failed_requests == 0`;
under any requested cancellation the status is `Cancelled` regardless
of the failure counts. -/
theorem claim_C1 (envs : List Worker.ReqEnv) (hK : 0 < envs.length) :
    ((Worker.runBody envs none).metrics.failed_requests = envs.length →
        (Worker.runBody envs none).status = Worker.JobStatus.failed) ∧
    (0 < (Worker.runBody envs none).metrics.failed_requests →
        (Worker.runBody envs none).metrics.failed_requests < envs.length →
        (Worker.runBody envs none).status = Worker.JobStatus.partiallyCompleted) ∧
    ((Worker.runBody envs none).metrics.failed_requests = 0 →
        (Worker.runBody envs none).status = Worker.JobStatus.completed) ∧
    ∀ ci : Worker.CancelInfo,
      (Worker.runBody envs (some ci)).status = Worker.JobStatus.cancelled := by
  have hstat : (Worker.runBody envs none).status =
      Worker.finalStatus false (Worker.runBody envs none).metrics.failed_requests
        envs.length := rfl
  refine ⟨?_, ?_, ?_, ?_⟩
  · intro h
    rw [hstat, h]
    simp [Worker.finalStatus, hK]
  · intro h1 h2
    rw [hstat]
    simp [Worker.finalStatus, h1, Nat.ne_of_lt h2]
  · intro h0
    rw [hstat, h0]
    simp [Worker.finalStatus]
  · intro ci
    rfl

/-- C1 witness: a singleton batch whose only request fails is `Failed`. -/
theorem claim_C1_witness :
    (Worker.runBody [Worker.ReqEnv.genFail 0 "e" true] none).status =
      Worker.JobStatus.failed :=
  (claim_C1 [Worker.ReqEnv.genFail 0 "e" true] (by decide)).1 (by decide)

/-- C5 counterexample: a task created by the dispatch loop but
hard-cancelled by `cancel()` before its first step never enters
`process_request`, so its `try/finally` — and the semaphore release in
it — never runs: the run acquires one permit and releases none,
refuting the claim that every acquisition is matched by a release on
every exit path. -/
theorem claim_C5_counterexample :
    (Worker.runBody [Worker.ReqEnv.ok 1 1]
        (some ⟨none, fun _ => Worker.Fate.hardPre⟩)).semAcquires = 1 ∧
    (Worker.runBody [Worker.ReqEnv.ok 1 1]
        (some ⟨none, fun _ => Worker.Fate.hardPre⟩)).semReleases = 0 ∧
    (1 : Nat) ≠ 0 :=
  ⟨rfl, rfl, by decide⟩

/-- C5 amended: releases never exceed acquisitions, and every
acquisition is matched by exactly one release — restoring the
semaphore to `max_concurrent_requests` — on every exit path except one:
a task hard-cancelled before its first step leaks its permit.  In
particular the balance holds for every execution without cancellation,
and for cancelled executions in which no launched task was cancelled
before it started (the dispatch-loop slot released at the cooperative
break is always matched). -/
theorem claim_C5_amended :
    (∀ envs : List Worker.ReqEnv,
        (Worker.runBody envs none).semAcquires =
          (Worker.runBody envs none).semReleases) ∧
    (∀ (envs : List Worker.ReqEnv) (sc : Option Worker.CancelInfo),
        (Worker.runBody envs sc).semReleases ≤ (Worker.runBody envs sc).semAcquires) ∧
    ∀ (envs : List Worker.ReqEnv) (sc : Option Worker.CancelInfo),
      (∀ i, i < Worker.launchedCount envs.length sc →
          Worker.fateOf sc i ≠ Worker.Fate.hardPre) →
      (Worker.runBody envs sc).semAcquires = (Worker.runBody envs sc).semReleases := by
  have key : ∀ (envs : List Worker.ReqEnv) (sc : Option Worker.CancelInfo),
      (∀ i, i < Worker.launchedCount envs.length sc →
          Worker.fateOf sc i ≠ Worker.Fate.hardPre) →
      (Worker.runBody envs sc).semAcquires = (Worker.runBody envs sc).semReleases := by
    intro envs sc h
    have ha : (Worker.runBody envs sc).semAcquires =
        Worker.launchedCount envs.length sc + Worker.loopReleases envs.length sc := rfl
    have hr : (Worker.runBody envs sc).semReleases =
        Worker.loopReleases envs.length sc +
          ((Worker.launchedResults sc 0
              (envs.take (Worker.launchedCount envs.length sc))).map
            Worker.ReqResult.semRel).sum := rfl
    have hsum := Worker.launchedResults_sum_semRel_eq sc 0
      (envs.take (Worker.launchedCount envs.length sc))
      (by
        intro k hk
        rw [List.length_take] at hk
        have hkL : k < Worker.launchedCount envs.length sc :=
          lt_of_lt_of_le hk (Nat.min_le_left _ _)
        simpa using h k hkL)
    rw [ha, hr, hsum, List.length_take]
    have hle := Worker.launchedCount_le envs.length sc
    omega
  refine ⟨?_, ?_, key⟩
  · intro envs
    apply key
    intro i _ hcontra
    exact Worker.Fate.noConfusion hcontra
  · intro envs sc
    have ha : (Worker.runBody envs sc).semAcquires =
        Worker.launchedCount envs.length sc + Worker.loopReleases envs.length sc := rfl
    have hr : (Worker.runBody envs sc).semReleases =
        Worker.loopReleases envs.length sc +
          ((Worker.launchedResults sc 0
              (envs.take (Worker.launchedCount envs.length sc))).map
            Worker.ReqResult.semRel).sum := rfl
    have hs := Worker.launchedResults_sum_semRel_le sc 0
      (envs.take (Worker.launchedCount envs.length sc))
    rw [List.length_take] at hs
    have hle := Worker.launchedCount_le envs.length sc
    rw [ha, hr]
    omega

/-- C5 amended witness: a cancelled run whose only task was
hard-cancelled mid-flight still balances the semaphore. -/
theorem claim_C5_amended_witness :
    (Worker.runBody [Worker.ReqEnv.ok 1 1]
        (some ⟨none, fun _ => Worker.Fate.hardMid 1⟩)).semAcquires =
      (Worker.runBody [Worker.ReqEnv.ok 1 1]
        (some ⟨none, fun _ => Worker.Fate.hardMid 1⟩)).semReleases :=
  claim_C5_amended.2.2 [Worker.ReqEnv.ok 1 1]
    (some ⟨none, fun _ => Worker.Fate.hardMid 1⟩)
    (fun _ _ h => Worker.Fate.noConfusion h)

/-- C10: `run()` on an empty request list terminates with status
`Completed`, `failed_requests = 0`, `success_rate = 0` and
`avg_processing_time = 0`. -/
theorem claim_C10 :
    (Worker.runBody ([] : List Worker.ReqEnv) none).status =
        Worker.JobStatus.completed ∧
    (Worker.runBody ([] : List Worker.ReqEnv) none).metrics.failed_requests = 0 ∧
    Worker.success_rate (Worker.runBody ([] : List Worker.ReqEnv) none).metrics = 0 ∧
    Worker.avg_processing_time
      (Worker.runBody ([] : List Worker.ReqEnv) none).metrics = 0 :=
  ⟨rfl, rfl, rfl, rfl⟩

/-- C8 counterexample: after a first `run()` call has finished (which
resets `_is_running` to `False` in its `finally` block), a second
sequential `run()` call on the same `Job` does not raise the
already-running error — it executes the batch again, on the metrics
object that `__init__` created and nothing ever resets: re-running a
successful singleton batch reports `successful_requests = 2` of
`total_requests = 1`, and re-running an all-failed singleton batch
reports `PartiallyCompleted` (`failed_requests = 2 ≠ 1`) instead of
`Failed` — refuting the claim that any call after `run()` has been
entered fails. -/
theorem claim_C8_counterexample :
    Worker.runTwice [Worker.ReqEnv.ok 1 1] ≠
      Except.error "Job is already running" ∧
    (Worker.runTwice [Worker.ReqEnv.ok 1 1]).map
        (fun r => (r.metrics.total_requests, r.metrics.successful_requests,
          r.status)) =
      Except.ok (1, 2, Worker.JobStatus.completed) ∧
    (Worker.runTwice [Worker.ReqEnv.genFail 0 "e" true]).map
        (fun r => (r.metrics.total_requests, r.metrics.failed_requests,
          r.status)) =
      Except.ok (1, 2, Worker.JobStatus.partiallyCompleted) := by
  refine ⟨?_, ?_, ?_⟩
  · intro h
    exact Except.noConfusion h
  · rfl
  · rfl

/-- C8 amended: re-entry of `run()` while a run is in progress
(`_is_running` still `True`) fails with the already-running error; but
after a run has returned, the flag is reset while `self.metrics` is
not, so a later sequential call executes the batch again starting from
the accumulated metrics instead of failing. -/
theorem claim_C8_amended :
    (∀ (m : Worker.JobMetrics) (envs : List Worker.ReqEnv)
        (sc : Option Worker.CancelInfo),
        Worker.runJob ⟨true, m⟩ envs sc = Except.error "Job is already running") ∧
    (∀ (m : Worker.JobMetrics) (envs : List Worker.ReqEnv)
        (sc : Option Worker.CancelInfo),
        Worker.runJob ⟨false, m⟩ envs sc =
          Except.ok (Worker.runBodyFrom m envs sc,
            ⟨false, (Worker.runBodyFrom m envs sc).metrics⟩)) ∧
    ∀ envs : List Worker.ReqEnv,
      Worker.runTwice envs =
        Except.ok (Worker.runBodyFrom
          (Worker.runBodyFrom (Worker.initMetrics envs.length) envs none).metrics
          envs none) :=
  ⟨fun _ _ _ => rfl, fun _ _ _ => rfl, fun _ => rfl⟩

/-- C2 counterexample: in the queue-based `process_batch` of
`src/src/job/processor.py`, a single failing request makes the whole
batch-level call raise (`process_with_logging` re-raises and
`asyncio.gather` has no `return_exceptions=True`), so the failure is
not recovered locally even though the error was written to the sink. -/
theorem claim_C2_counterexample :
    (Queued.process_batch [Queued.PEnv.fail 0 "boom", Queued.PEnv.ok 3]).1 =
      Except.error "boom" ∧
    (Queued.process_prompt (Queued.PEnv.fail 0 "boom")).errorWritten = some "boom" :=
  ⟨rfl, rfl⟩

/-- C2 amended: in the worker `Job.process_request`, a per-request
failure is always counted in `failed_requests` and never reaches a
sibling: the sink record of request `j` depends only on request `j`'s
own environment and fate, and the batch outcome's `error` field stays
empty for request-level failures.  The failure is written to the sink
as that request's `Failed` record exactly when the `except` block's
own `mark_error` write succeeds; when the sink fails there too, the
count increments with no `Failed` record and the exception escapes
`process_request` — absorbed by `gather(..., return_exceptions=True)`,
so it still never aborts a sibling.  (In `process_batch` of
`src/src/job/processor.py` the error instead propagates to the
batch-level call, per the counterexample.) -/
theorem claim_C2_amended :
    (∀ (env : Worker.ReqEnv) (me : Bool), Worker.markErrorOutcome env = some me →
        (Worker.process_request env).failedInc = 1 ∧
        (Worker.process_request env).raised = !me ∧
        (Worker.statusOfOps (Worker.process_request env).ops =
            Worker.SinkStatus.failedS ↔ me = true)) ∧
    (∀ env : Worker.ReqEnv, Worker.markErrorOutcome env = none →
        (Worker.process_request env).failedInc = 0 ∧
        (Worker.process_request env).raised = false ∧
        Worker.statusOfOps (Worker.process_request env).ops =
          Worker.SinkStatus.completedS) ∧
    (∀ (envs envs' : List Worker.ReqEnv) (sc : Option Worker.CancelInfo) (j : Nat),
        envs.length = envs'.length → envs[j]? = envs'[j]? →
        (Worker.runBody envs sc).sinkOps[j]? =
          (Worker.runBody envs' sc).sinkOps[j]?) ∧
    ∀ (envs : List Worker.ReqEnv) (sc : Option Worker.CancelInfo),
      (Worker.runBody envs sc).error = none := by
  refine ⟨Worker.process_request_fail_spec, Worker.process_request_ok_spec, ?_,
    fun _ _ => rfl⟩
  intro envs envs' sc j hlen hj
  have h1 : (Worker.runBody envs sc).sinkOps =
      (Worker.launchedResults sc 0
        (envs.take (Worker.launchedCount envs.length sc))).map
        Worker.ReqResult.ops := rfl
  have h2 : (Worker.runBody envs' sc).sinkOps =
      (Worker.launchedResults sc 0
        (envs'.take (Worker.launchedCount envs'.length sc))).map
        Worker.ReqResult.ops := rfl
  rw [h1, h2, hlen, List.getElem?_map, List.getElem?_map,
    Worker.launchedResults_getElem?, Worker.launchedResults_getElem?]
  by_cases hjL : j < Worker.launchedCount envs'.length sc
  · rw [List.getElem?_take_of_lt hjL, List.getElem?_take_of_lt hjL, hj]
  · have hn1 : (envs.take (Worker.launchedCount envs'.length sc))[j]? = none := by
      apply List.getElem?_eq_none
      rw [List.length_take]
      omega
    have hn2 : (envs'.take (Worker.launchedCount envs'.length sc))[j]? = none := by
      apply List.getElem?_eq_none
      rw [List.length_take]
      omega
    rw [hn1, hn2]

/-- C2 amended witness: a failure of request 0 (with a failing
`mark_error` write, the worst case) leaves the sink record of its
sibling request 1 exactly as it is when request 0 succeeds. -/
theorem claim_C2_amended_witness :
    (Worker.runBody [Worker.ReqEnv.genFail 0 "e" false, Worker.ReqEnv.ok 2 1]
        none).sinkOps[1]? =
      (Worker.runBody [Worker.ReqEnv.ok 9 1, Worker.ReqEnv.ok 2 1]
        none).sinkOps[1]? :=
  claim_C2_amended.2.2.1 [Worker.ReqEnv.genFail 0 "e" false, Worker.ReqEnv.ok 2 1]
    [Worker.ReqEnv.ok 9 1, Worker.ReqEnv.ok 2 1] none 1 (by decide) (by decide)

/-- C6 counterexample: a batch whose executor ends `Cancelled` can
leave a request stuck `InProgress`: `cancel()` hard-cancels the
in-flight task at an `await`, the resulting `CancelledError` is a
`BaseException` that skips `except Exception`, so neither
`finalize_result` nor `mark_error` is ever written — the consumer
keeps seeing `InProgress`, not `Failed`, while the batch outcome is
`Cancelled` — refuting the claim that a batch-level `Cancelled` is
visible as each request resolving to `Failed`. -/
theorem claim_C6_counterexample :
    (Worker.runBody [Worker.ReqEnv.ok 5 1]
        (some ⟨none, fun _ => Worker.Fate.hardMid 3⟩)).status =
      Worker.JobStatus.cancelled ∧
    (Worker.runBody [Worker.ReqEnv.ok 5 1]
        (some ⟨none, fun _ => Worker.Fate.hardMid 3⟩)).sinkOps.map
        Worker.statusOfOps = [Worker.SinkStatus.inProgressS] ∧
    Worker.SinkStatus.inProgressS ≠ Worker.SinkStatus.failedS :=
  ⟨rfl, by decide, by decide⟩

/-- C6 amended: a consumer polling one request never observes a
transition out of a terminal state — everything before the last sink
operation of a task, however it ended (success, handled failure,
failing `mark_error`, hard cancellation), is `init` or `append`, so at
most one terminal transition occurs and only as the final write; and a
batch that ends `Failed` because every request failed (no
cancellation), where every failure was recorded by a successful
`mark_error` write, is visible as every one of its requests
individually resolving to `Failed`.  A batch ending `Cancelled` is
not: a hard-cancelled in-flight request stays `InProgress` forever
(see the counterexample). -/
theorem claim_C6_amended :
    (∀ (env : Worker.ReqEnv) (f : Worker.Fate),
        ∀ op ∈ (Worker.runReq env f).ops.dropLast,
          op = Worker.SinkOp.init ∨ op = Worker.SinkOp.append) ∧
    ∀ envs : List Worker.ReqEnv, 0 < envs.length →
      (∀ env ∈ envs, Worker.markErrorOutcome env ≠ some false) →
      (Worker.runBody envs none).metrics.failed_requests = envs.length →
      ∀ ops ∈ (Worker.runBody envs none).sinkOps,
        Worker.statusOfOps ops = Worker.SinkStatus.failedS := by
  refine ⟨Worker.runReq_dropLast, ?_⟩
  intro envs hpos hme hfail ops hops
  have htake : envs.take (Worker.launchedCount envs.length none) = envs := by
    show envs.take envs.length = envs
    exact List.take_length envs
  have hres : (Worker.runBody envs none).sinkOps =
      (Worker.launchedResults none 0 envs).map Worker.ReqResult.ops := by
    show (Worker.launchedResults none 0
        (envs.take (Worker.launchedCount envs.length none))).map
        Worker.ReqResult.ops = _
    rw [htake]
  have e1 : (Worker.runBody envs none).metrics.failed_requests =
      0 + ((Worker.launchedResults none 0
        (envs.take (Worker.launchedCount envs.length none))).map
        Worker.ReqResult.failedInc).sum := rfl
  rw [htake, Nat.zero_add] at e1
  have hfail2 : ((Worker.launchedResults none 0 envs).map
      Worker.ReqResult.failedInc).sum =
      (Worker.launchedResults none 0 envs).length := by
    rw [← e1, hfail, Worker.launchedResults_length]
  have hle : ∀ r ∈ Worker.launchedResults none 0 envs, r.failedInc ≤ 1 := by
    intro r hr
    obtain ⟨env2, k, hmem2, hre⟩ := Worker.launchedResults_mem none 0 envs r hr
    rw [hre]
    exact Worker.runReq_failedInc_le env2 _
  have hall := Worker.all_eq_one_of_sum_eq_length Worker.ReqResult.failedInc
    (Worker.launchedResults none 0 envs) hle hfail2
  rw [hres] at hops
  obtain ⟨r, hrmem, hrops⟩ := List.mem_map.mp hops
  obtain ⟨env2, k, hmem2, hre⟩ := Worker.launchedResults_mem none 0 envs r hrmem
  have h1 : r.failedInc = 1 := hall r hrmem
  have hran : Worker.runReq env2 (Worker.fateOf none k) =
      Worker.process_request env2 := rfl
  rw [hre, hran] at h1
  rw [← hrops, hre, hran]
  exact Worker.process_request_failed_status env2 h1 (hme env2 hmem2)

/-- C6 amended witness: a fully failed singleton batch whose
`mark_error` write succeeded resolves its request to `Failed` in the
sink. -/
theorem claim_C6_amended_witness :
    Worker.statusOfOps [Worker.SinkOp.init, Worker.SinkOp.markError] =
      Worker.SinkStatus.failedS :=
  claim_C6_amended.2 [Worker.ReqEnv.genFail 0 "e" true] (by decide) (by decide)
    (by decide) [Worker.SinkOp.init, Worker.SinkOp.markError] (by decide)

